import Mathlib

/-!
Shallow embedding of `collision_CV/collision_detector.py` from the
ConcussionTracker repository, together with theorems checking the
natural-language specification against the code.
-/

open scoped Classical

namespace CollisionDetector

/-! ### Configuration constants (collision_detector.py, "Config" sections) -/

def FRAMES_CONFIRM : Nat := 2

def CLIP_PRE_SECONDS : ℚ := 5

def COLLISION_IOU_THRESHOLD : ℚ := 1/20

noncomputable def DEPTH_DIFF_MAX : ℝ := 200

noncomputable def DIST_3D_MAX : ℝ := 400

def BOX_PADDING : ℤ := 20

def HITBOX_SCALE : ℚ := 6/5

/-! ### Temporal-confirmation state machine (lines 473-488)

Per-detector state: the integer `overlap_streak` counter and the boolean
`currently_overlapping` flag.  Each frame, the raw collision test either
increments the streak or resets it to zero; `confirmed` is
`overlap_streak >= FRAMES_CONFIRM`, and the confirmation edge (collision
count increment and clip trigger) fires when `confirmed and not
currently_overlapping`; afterwards `currently_overlapping` is set to
`confirmed`. -/

structure CollisionState where
  overlap_streak : Nat
  currently_overlapping : Bool
deriving DecidableEq, Repr

def initCollisionState : CollisionState := ⟨0, false⟩

/-- One frame of the temporal-confirmation logic.  Returns the new state and
whether the confirmation edge fired on this frame. -/
def collisionStep (s : CollisionState) (raw : Bool) : CollisionState × Bool :=
  let streak := if raw then s.overlap_streak + 1 else 0
  let confirmed := decide (FRAMES_CONFIRM ≤ streak)
  ((⟨streak, confirmed⟩ : CollisionState), confirmed && !s.currently_overlapping)

/-- The fire flags produced frame-by-frame over a raw-test sequence. -/
def runFires : CollisionState → List Bool → List Bool
  | _, [] => []
  | s, r :: rs => (collisionStep s r).2 :: runFires (collisionStep s r).1 rs

/-- Number of confirmation-edge firings over a raw-test sequence. -/
def fireCount (s : CollisionState) (rs : List Bool) : Nat :=
  (runFires s rs).count true

lemma fireCount_nil (s : CollisionState) : fireCount s [] = 0 := rfl

lemma fireCount_cons (s : CollisionState) (r : Bool) (rs : List Bool) :
    fireCount s (r :: rs) =
      fireCount (collisionStep s r).1 rs + (if (collisionStep s r).2 = true then 1 else 0) := by
  simp [fireCount, runFires, List.count_cons]

/-- After confirmation, later frames of the same unbroken true run never fire. -/
lemma fireCount_true_run_confirmed (n : Nat) :
    ∀ k : Nat, FRAMES_CONFIRM ≤ k →
      fireCount ⟨k, true⟩ (List.replicate n true) = 0 := by
  induction n with
  | zero => intro k _; simp [fireCount_nil]
  | succ m ih =>
      intro k hk
      rw [List.replicate_succ, fireCount_cons]
      have hc : FRAMES_CONFIRM ≤ k + 1 := Nat.le_succ_of_le hk
      simpa [collisionStep, hc] using ih (k + 1) hc

/-- Within an unbroken run of true raw tests started below the threshold with
the flag down, the edge fires exactly once iff the run reaches the
confirmation threshold. -/
lemma fireCount_true_run (n : Nat) :
    ∀ k : Nat, k < FRAMES_CONFIRM →
      fireCount ⟨k, false⟩ (List.replicate n true) =
        if FRAMES_CONFIRM ≤ k + n then 1 else 0 := by
  induction n with
  | zero =>
      intro k hk
      rw [List.replicate_zero, fireCount_nil, if_neg]
      omega
  | succ m ih =>
      intro k hk
      rw [List.replicate_succ, fireCount_cons]
      by_cases hreach : FRAMES_CONFIRM ≤ k + 1
      · have h0 := fireCount_true_run_confirmed m (k + 1) hreach
        have h1 : FRAMES_CONFIRM ≤ k + (m + 1) := le_trans hreach (by omega)
        simp [collisionStep, hreach, h0, h1]
      · have h0 := ih (k + 1) (by omega)
        simp [collisionStep, hreach, h0]
        split <;> split <;> omega

/-- C1: the confirmation edge fires exactly on the false→true transition of the
confirmed flag, a false raw test resets the state to the initial state (so each
contact episode starts fresh), and over an unbroken run of `n` true raw tests
from the initial state the edge fires exactly once when the run reaches
`FRAMES_CONFIRM` frames and never again. -/
theorem confirmation_fires_once_per_episode :
    (∀ s raw, (collisionStep s raw).2 =
        ((collisionStep s raw).1.currently_overlapping && !s.currently_overlapping)) ∧
    (∀ s, (collisionStep s false).1 = initCollisionState) ∧
    (∀ n, fireCount initCollisionState (List.replicate n true) =
        if FRAMES_CONFIRM ≤ n then 1 else 0) := by
  refine ⟨fun s raw => rfl, fun s => rfl, fun n => ?_⟩
  have := fireCount_true_run n 0 (by decide)
  simpa [initCollisionState] using this

/-- The raw-test sequence of the spec's Collision Detector test vector. -/
def specRawSeq : List Bool := [false, true, true, false, true, true, true]

/-- C2 counterexample: on `[false, true, true, false, true, true, true]` with
`FRAMES_CONFIRM = 2`, the confirmation edge does NOT fire at index 6; it fires
at index 5 (the streak reaches 2 on the second consecutive true after the
reset), so the claimed second-confirmation index is wrong. -/
theorem second_confirmation_not_at_index_six :
    (runFires initCollisionState specRawSeq).get? 6 = some false ∧
    (runFires initCollisionState specRawSeq).get? 5 = some true := by decide

/-- C2 amended: on the spec's raw-test sequence the confirmation edge fires
exactly twice, at index 2 and at index 5 (0-based). -/
theorem confirmation_indices_on_spec_sequence :
    runFires initCollisionState specRawSeq =
      [false, false, true, false, false, true, false] := by decide

/-! ### Hitbox overlap and the raw per-frame collision test (lines 245-267
and 452-471) -/

/-- Axis-aligned box `(x1, y1, x2, y2)` in integer pixel coordinates. -/
structure Box where
  x1 : ℤ
  y1 : ℤ
  x2 : ℤ
  y2 : ℤ
deriving DecidableEq, Repr

/-- Source `_intersect_area_xyxy` (lines 245-254). -/
def intersect_area_xyxy (a b : Box) : ℤ :=
  let ix1 := max a.x1 b.x1
  let iy1 := max a.y1 b.y1
  let ix2 := min a.x2 b.x2
  let iy2 := min a.y2 b.y2
  max 0 (ix2 - ix1) * max 0 (iy2 - iy1)

/-- Source `compute_iou` (lines 256-267). -/
def compute_iou (a b : Box) : ℚ :=
  let inter := intersect_area_xyxy a b
  if inter ≤ 0 then 0
  else
    let area_a := max 0 (a.x2 - a.x1) * max 0 (a.y2 - a.y1)
    let area_b := max 0 (b.x2 - b.x1) * max 0 (b.y2 - b.y1)
    let union := area_a + area_b - inter
    if union ≤ 0 then 0 else (inter : ℚ) / (union : ℚ)

/-- A successfully posed face detection as used by the collision test: its
hitbox and its translation vector `(tx, ty, tz)` in millimeters. -/
structure Detection where
  bbox : Box
  tx : ℝ
  ty : ℝ
  tz : ℝ

/-- All ordered pairs (index `i < j` order), matching the nested loops of
lines 457-458. -/
def orderedPairs : List γ → List (γ × γ)
  | [] => []
  | x :: xs => xs.map (fun y => (x, y)) ++ orderedPairs xs

/-- One step of the running maximum-IoU/best-pair scan (lines 459-462): update
exactly when the new IoU strictly exceeds the current maximum. -/
def bestStep (acc : ℚ × Option (Detection × Detection)) (p : Detection × Detection) :
    ℚ × Option (Detection × Detection) :=
  if acc.1 < compute_iou p.1.bbox p.2.bbox then (compute_iou p.1.bbox p.2.bbox, some p)
  else acc

/-- The `(max_iou, best_pair)` state after scanning every face pair, starting
from `(0.0, None)` (lines 455-462). -/
def bestState (dets : List Detection) : ℚ × Option (Detection × Detection) :=
  (orderedPairs dets).foldl bestStep (0, none)

/-- The value `np.linalg.norm(t1 - t2)` for two translation vectors (line 469). -/
noncomputable def dist3 (d1 d2 : Detection) : ℝ :=
  Real.sqrt ((d1.tx - d2.tx)^2 + (d1.ty - d2.ty)^2 + (d1.tz - d2.tz)^2)

/-- Source `is_close3d` (lines 468-470): depth components close and full 3D distance
close. -/
def is_close3d (d1 d2 : Detection) : Prop :=
  |d1.tz - d2.tz| < DEPTH_DIFF_MAX ∧ dist3 d1 d2 < DIST_3D_MAX

/-- The raw per-frame collision test `is_collision_now` (lines 452-471): false
with fewer than two detections; otherwise true iff the best (maximum-IoU) pair
exists, its IoU is at or above the threshold, and the 3D proximity check holds
for that pair. -/
def rawCollision (dets : List Detection) : Prop :=
  2 ≤ dets.length ∧
    match bestState dets with
    | (m, some p) => COLLISION_IOU_THRESHOLD ≤ m ∧ is_close3d p.1 p.2
    | (_, none) => False

/-- Modelled from the spec's words for the collision condition: the maximum
pairwise IoU over all face pairs, as a plain running maximum. -/
def maxPairwiseIoU (dets : List Detection) : ℚ :=
  ((orderedPairs dets).map (fun p => compute_iou p.1.bbox p.2.bbox)).foldl max 0

lemma foldl_bestStep_fst (l : List (Detection × Detection)) :
    ∀ acc, (l.foldl bestStep acc).1 =
      (l.map (fun p => compute_iou p.1.bbox p.2.bbox)).foldl max acc.1 := by
  induction l with
  | nil => intro acc; rfl
  | cons p l ih =>
      intro acc
      simp only [List.foldl_cons, List.map_cons]
      rw [ih]
      congr 1
      by_cases h : acc.1 < compute_iou p.1.bbox p.2.bbox
      · simp [bestStep, h, max_eq_right (le_of_lt h)]
      · simp [bestStep, h, max_eq_left (not_lt.mp h)]

lemma bestState_fst (dets : List Detection) :
    (bestState dets).1 = maxPairwiseIoU dets :=
  foldl_bestStep_fst _ _

/-- C8: the raw per-frame collision test is true iff there are at least two
successfully posed faces, the maximum pairwise hitbox IoU is at or above the
overlap threshold, and the maximum-IoU pair passes both 3D proximity checks
(depth difference below `DEPTH_DIFF_MAX` and 3D distance below
`DIST_3D_MAX`). -/
theorem raw_collision_test_characterisation (dets : List Detection) :
    rawCollision dets ↔
      2 ≤ dets.length ∧ COLLISION_IOU_THRESHOLD ≤ maxPairwiseIoU dets ∧
        ∃ p, (bestState dets).2 = some p ∧ is_close3d p.1 p.2 := by
  unfold rawCollision
  rcases hb : bestState dets with ⟨m, op⟩
  have hm : m = maxPairwiseIoU dets := by rw [← bestState_fst dets, hb]
  cases op with
  | none => simp
  | some p =>
      subst hm
      constructor
      · rintro ⟨hn, hτ, hc⟩
        exact ⟨hn, hτ, p, rfl, hc⟩
      · rintro ⟨hn, hτ, q, hq, hc⟩
        cases Option.some.inj hq
        exact ⟨hn, hτ, hc⟩

/-! ### Per-frame streak update in the main loop (lines 319, 382, 474-477)

The temporal-confirmation block is nested inside
`if results.multi_face_landmarks:` and `if detections:` — it runs only on
frames that produced at least one successfully posed detection.  On all other
frames `overlap_streak` is left untouched. -/

/-- One frame's effect on `overlap_streak`: skipped entirely when the frame
has no surviving detections, otherwise incremented on a true raw test and
reset to zero on a false one. -/
noncomputable def frameStreak (s : Nat) (dets : List Detection) : Nat :=
  if dets = [] then s
  else if rawCollision dets then s + 1 else 0

/-- A concrete detection for counterexamples: a 10×10 hitbox at the image
origin, translation vector `(0, 0, 0)`. -/
noncomputable def dA : Detection := ⟨⟨0, 0, 10, 10⟩, 0, 0, 0⟩

lemma rawCollision_dA_dA : rawCollision [dA, dA] := by
  refine ⟨by simp, ?_⟩
  have hb : bestState [dA, dA] = (1, some (dA, dA)) := by
    have hiou : compute_iou dA.bbox dA.bbox = 1 := by
      simp [compute_iou, intersect_area_xyxy, dA]
    simp [bestState, orderedPairs, bestStep, hiou]
  rw [hb]
  refine ⟨by norm_num [COLLISION_IOU_THRESHOLD], ?_, ?_⟩
  · simp [dA, DEPTH_DIFF_MAX]
  · simp [dist3, dA, DIST_3D_MAX]

/-- C3 counterexample: after a frame with a true raw test (streak 1), a frame
with zero detections leaves the streak at 1 even though the raw test on that
frame is (per the spec) unconditionally false — the reset is skipped because
the collision block does not run. -/
theorem streak_survives_empty_frame :
    frameStreak (frameStreak 0 [dA, dA]) [] = 1 ∧ (1 : Nat) ≠ 0 := by
  have h1 : frameStreak 0 [dA, dA] = 1 := by
    unfold frameStreak
    rw [if_neg (by simp), if_pos rawCollision_dA_dA]
  rw [h1]
  exact ⟨by unfold frameStreak; rw [if_pos rfl], one_ne_zero⟩

/-- C3 amended: the overlap streak is zero after every frame that has at least
one successfully posed detection and whose raw collision test is false;
frames with zero detections (no faces, or every pose solve failed) leave the
streak unchanged instead of resetting it. -/
theorem streak_zero_after_false_raw_test :
    (∀ s : Nat, frameStreak s [] = s) ∧
    (∀ (s : Nat) (dets : List Detection),
        dets ≠ [] → ¬ rawCollision dets → frameStreak s dets = 0) := by
  constructor
  · intro s; unfold frameStreak; rw [if_pos rfl]
  · intro s dets hne hraw
    unfold frameStreak
    rw [if_neg hne, if_neg hraw]

/-- Witness for the amended C3 theorem at a concrete input: one detection,
raw test false (fewer than two faces), streak 5 resets to 0. -/
theorem streak_zero_after_false_raw_test_witness :
    frameStreak 5 [dA] = 0 :=
  streak_zero_after_false_raw_test.2 5 [dA] (by simp)
    (fun hr => absurd hr.1 (by simp))

/-! ### Clip ring buffer maintenance (lines 498-502) -/

/-- Python `int(...)` truncation toward zero on a rational. -/
def pyInt (q : ℚ) : ℤ := if q < 0 then -⌊-q⌋ else ⌊q⌋

/-- Source `max_pre_frames = int(max(1, int(CLIP_PRE_SECONDS * clip_fps)))`
(line 500), with the effective frame rate as a parameter (camera-provided when
available, else the fixed fallback 20). -/
def maxPreFrames (clip_fps : ℚ) : ℕ := (max 1 (pyInt (CLIP_PRE_SECONDS * clip_fps))).toNat

/-- The `while len(prebuffer) > max_pre_frames: prebuffer.popleft()` loop
(lines 501-502). -/
def evictLoop (cap : ℕ) : List γ → List γ
  | [] => []
  | x :: xs => if cap < (x :: xs).length then evictLoop cap xs else x :: xs

/-- Lines 499-502: append the `(timestamp, frame)` entry, then pop from the
front until at most `max_pre_frames` entries remain. -/
def pushFrame (cap : ℕ) (buf : List γ) (e : γ) : List γ := evictLoop cap (buf ++ [e])

lemma evictLoop_eq_drop (cap : ℕ) : ∀ l : List γ, evictLoop cap l = l.drop (l.length - cap) := by
  intro l
  induction l with
  | nil => rw [evictLoop]; simp
  | cons x xs ih =>
      by_cases h : cap < (x :: xs).length
      · rw [evictLoop, if_pos h, ih]
        have hlen : (x :: xs).length - cap = (xs.length - cap) + 1 := by
          simp only [List.length_cons] at h ⊢; omega
        rw [hlen, List.drop_succ_cons]
      · rw [evictLoop, if_neg h]
        have hlen : (x :: xs).length - cap = 0 := by
          simp only [List.length_cons] at h ⊢; omega
        rw [hlen, List.drop_zero]

/-- Elapsed time covered by the buffer: newest timestamp minus oldest. -/
def bufferDuration (buf : List (ℚ × ℕ)) : ℚ :=
  ((buf.getLast?).map Prod.fst).getD 0 - ((buf.head?).map Prod.fst).getD 0

/-- Eleven pushes with timestamps one second apart: frames arriving slower
than the effective frame rate. -/
def slowTrace : List (ℚ × ℕ) :=
  [(0, 0), (1, 1), (2, 2), (3, 3), (4, 4), (5, 5), (6, 6), (7, 7), (8, 8), (9, 9), (10, 10)]

/-- C4 counterexample: with a camera-reported frame rate of 2 fps
(`max_pre_frames = 10`) and frames actually arriving one second apart,
pushing entries with timestamps 0..10 leaves a buffer spanning 9 seconds —
far above the 5-second pre-event window.  Eviction is count-based, not
age-based, so the claimed duration invariant fails. -/
theorem buffer_duration_can_exceed_window :
    ¬ (bufferDuration (slowTrace.foldl (pushFrame (maxPreFrames 2)) []) ≤
        CLIP_PRE_SECONDS) := by
  have h10 : (CLIP_PRE_SECONDS * 2 : ℚ) = ((10 : ℤ) : ℚ) := by
    norm_num [CLIP_PRE_SECONDS]
  have hcap : maxPreFrames 2 = 10 := by
    simp only [maxPreFrames, pyInt, h10, Int.floor_intCast]
    norm_num
    decide
  have hbuf : slowTrace.foldl (pushFrame (maxPreFrames 2)) [] =
      [((1 : ℚ), (1 : ℕ)), (2, 2), (3, 3), (4, 4), (5, 5),
        (6, 6), (7, 7), (8, 8), (9, 9), (10, 10)] := by
    rw [hcap]; rfl
  rw [hbuf]
  have hdur : bufferDuration
      [((1 : ℚ), (1 : ℕ)), (2, 2), (3, 3), (4, 4), (5, 5),
        (6, 6), (7, 7), (8, 8), (9, 9), (10, 10)] = (10 : ℚ) - 1 := rfl
  rw [hdur]
  norm_num [CLIP_PRE_SECONDS]

/-- C4 amended: after each push-then-evict step the buffer holds at most
`max(1, int(window_seconds × effective_fps))` entries, and eviction removes
entries from the front in FIFO (oldest-first) order — the result is a suffix
of the appended buffer.  The duration bound (newest − oldest ≤ window) is not
maintained when frames arrive slower than the effective frame rate. -/
theorem ring_buffer_count_bound_and_fifo (fps : ℚ) (buf : List (ℚ × ℕ)) (e : ℚ × ℕ) :
    (pushFrame (maxPreFrames fps) buf e).length ≤ maxPreFrames fps ∧
    pushFrame (maxPreFrames fps) buf e =
      (buf ++ [e]).drop ((buf ++ [e]).length - maxPreFrames fps) := by
  constructor
  · rw [pushFrame, evictLoop_eq_drop, List.length_drop]
    omega
  · rw [pushFrame, evictLoop_eq_drop]

/-! ### Rotation-vector to Euler-angle conversion (lines 148-162) -/

/-- Two-argument arctangent: the angle of the point `(x, y)` in the plane. -/
noncomputable def atan2 (y x : ℝ) : ℝ := Complex.arg ⟨x, y⟩

/-- Radians to degrees (`math.degrees`). -/
noncomputable def toDegrees (x : ℝ) : ℝ := x * 180 / Real.pi

/-- Source `cv2.Rodrigues`: the rotation matrix of a rotation vector, by the
Rodrigues formula `R = I + sin θ · K + (1 − cos θ) · K²` with `θ = ‖rvec‖`
and `K` the cross-product matrix of the unit axis. -/
noncomputable def rodrigues (r : Fin 3 → ℝ) : Matrix (Fin 3) (Fin 3) ℝ :=
  let θ := Real.sqrt (r 0 ^ 2 + r 1 ^ 2 + r 2 ^ 2)
  let k := fun i => r i / θ
  let K : Matrix (Fin 3) (Fin 3) ℝ :=
    !![0, -k 2, k 1; k 2, 0, -k 0; -k 1, k 0, 0]
  1 + Real.sin θ • K + (1 - Real.cos θ) • (K * K)

/-- Source `rotationVectorToEuler` (lines 148-162): build the rotation matrix from
the rotation vector, take `sy = sqrt(R00² + R10²)`, branch on the singularity
`sy < 1e-6`, and return `(pitch, yaw, roll)` in degrees. -/
noncomputable def rotationVectorToEuler (rvec : Fin 3 → ℝ) : ℝ × ℝ × ℝ :=
  let R := rodrigues rvec
  let sy := Real.sqrt (R 0 0 * R 0 0 + R 1 0 * R 1 0)
  if sy < 1 / 1000000 then
    (toDegrees (atan2 (-R 1 2) (R 1 1)), toDegrees (atan2 (-R 2 0) sy), toDegrees 0)
  else
    (toDegrees (atan2 (R 2 1) (R 2 2)), toDegrees (atan2 (-R 2 0) sy),
      toDegrees (atan2 (R 1 0) (R 0 0)))

/-- Modelled from the spec's words for the Euler conversion: given the 3×3
rotation matrix, compute `sy = sqrt(R00² + R10²)`; if `sy ≥ 1e-6` return
`pitch = atan2(R21, R22)`, `yaw = atan2(-R20, sy)`, `roll = atan2(R10, R00)`;
otherwise `pitch = atan2(-R12, R11)`, `yaw = atan2(-R20, sy)`, `roll = 0`;
all in degrees. -/
noncomputable def eulerFromMatrixSpec (R : Matrix (Fin 3) (Fin 3) ℝ) : ℝ × ℝ × ℝ :=
  let sy := Real.sqrt (R 0 0 * R 0 0 + R 1 0 * R 1 0)
  if 1 / 1000000 ≤ sy then
    (toDegrees (atan2 (R 2 1) (R 2 2)), toDegrees (atan2 (-R 2 0) sy),
      toDegrees (atan2 (R 1 0) (R 0 0)))
  else
    (toDegrees (atan2 (-R 1 2) (R 1 1)), toDegrees (atan2 (-R 2 0) sy), 0)

/-- C5: for every rotation vector, the code's Euler conversion agrees with the
spec's formula on the rotation matrix built from that vector, in both the
non-singular (`sy ≥ 1e-6`) and singular (`sy < 1e-6`) branches. -/
theorem euler_conversion_matches_spec (rvec : Fin 3 → ℝ) :
    rotationVectorToEuler rvec = eulerFromMatrixSpec (rodrigues rvec) := by
  simp only [rotationVectorToEuler, eulerFromMatrixSpec]
  by_cases h : Real.sqrt ((rodrigues rvec) 0 0 * (rodrigues rvec) 0 0 +
      (rodrigues rvec) 1 0 * (rodrigues rvec) 1 0) < 1 / 1000000
  · rw [if_pos h, if_neg (not_le.mpr h)]
    simp [toDegrees]
  · rw [if_neg h, if_pos (not_lt.mp h)]

/-! ### Kinematic estimation (lines 403-411) -/

/-- Velocity computation for one face slot (lines 403-411): angular velocity
from the previous rotation vector and translational velocity from the
previous translation vector, each present only when a previous value exists
and `dt > 1e-6`. -/
noncomputable def kinematicStep (prev_rvec prev_tvec : Option (Fin 3 → ℝ))
    (rvec tvec : Fin 3 → ℝ) (dt : ℝ) : Option (ℝ × ℝ × ℝ) × Option ℝ :=
  let cur := rotationVectorToEuler rvec
  let ang :=
    match prev_rvec with
    | some pr =>
        if 1 / 1000000 < dt then
          let pa := rotationVectorToEuler pr
          some (|cur.1 - pa.1| / dt, |cur.2.1 - pa.2.1| / dt, |cur.2.2 - pa.2.2| / dt)
        else none
    | none => none
  let tr :=
    match prev_tvec with
    | some pt =>
        if 1 / 1000000 < dt then
          some (Real.sqrt ((tvec 0 - pt 0) ^ 2 + (tvec 1 - pt 1) ^ 2 + (tvec 2 - pt 2) ^ 2) / dt)
        else none
    | none => none
  (ang, tr)

/-- Modelled from the spec's words: per-axis angular velocity
`abs(current_angle − previous_angle) / dt`, with no wraparound correction. -/
noncomputable def specAngVel (prevAngles curAngles : ℝ × ℝ × ℝ) (dt : ℝ) : ℝ × ℝ × ℝ :=
  (|curAngles.1 - prevAngles.1| / dt, |curAngles.2.1 - prevAngles.2.1| / dt,
    |curAngles.2.2 - prevAngles.2.2| / dt)

/-- Modelled from the spec's words: translational velocity as the Euclidean
norm of `(currentTranslation − previousTranslation) / dt`. -/
noncomputable def specTransVel (prevT curT : Fin 3 → ℝ) (dt : ℝ) : ℝ :=
  Real.sqrt (((curT 0 - prevT 0) / dt) ^ 2 + ((curT 1 - prevT 1) / dt) ^ 2 +
    ((curT 2 - prevT 2) / dt) ^ 2)

/-- C6: each velocity component is absent exactly when its previous value is
missing or `dt ≤ 1e-6`; when both previous values exist and `dt > 1e-6`, the
result is exactly the spec's per-axis `|Δangle|/dt` and the Euclidean norm of
`Δtranslation/dt`. -/
theorem kinematic_estimator_contract (prev_rvec prev_tvec : Option (Fin 3 → ℝ))
    (rvec tvec : Fin 3 → ℝ) (dt : ℝ) :
    ((kinematicStep prev_rvec prev_tvec rvec tvec dt).1 = none ↔
      prev_rvec = none ∨ dt ≤ 1 / 1000000) ∧
    ((kinematicStep prev_rvec prev_tvec rvec tvec dt).2 = none ↔
      prev_tvec = none ∨ dt ≤ 1 / 1000000) ∧
    (∀ pr pt, kinematicStep (some pr) (some pt) rvec tvec dt =
      if 1 / 1000000 < dt then
        (some (specAngVel (rotationVectorToEuler pr) (rotationVectorToEuler rvec) dt),
          some (specTransVel pt tvec dt))
      else (none, none)) := by
  refine ⟨?_, ?_, ?_⟩
  · cases prev_rvec with
    | none => simp [kinematicStep]
    | some pr =>
        by_cases h : 1 / 1000000 < dt
        · simp [kinematicStep, h, not_le.mpr h]
        · simp [kinematicStep, h, not_lt.mp h]
  · cases prev_tvec with
    | none => simp [kinematicStep]
    | some pt =>
        by_cases h : 1 / 1000000 < dt
        · simp [kinematicStep, h, not_le.mpr h]
        · simp [kinematicStep, h, not_lt.mp h]
  · intro pr pt
    simp only [kinematicStep]
    by_cases h : 1 / 1000000 < dt
    · have hdt : (0 : ℝ) < dt := lt_trans (by norm_num) h
      have htv : specTransVel pt tvec dt =
          Real.sqrt ((tvec 0 - pt 0) ^ 2 + (tvec 1 - pt 1) ^ 2 + (tvec 2 - pt 2) ^ 2) / dt := by
        unfold specTransVel
        have hsum : ((tvec 0 - pt 0) / dt) ^ 2 + ((tvec 1 - pt 1) / dt) ^ 2 +
            ((tvec 2 - pt 2) / dt) ^ 2 =
            ((tvec 0 - pt 0) ^ 2 + (tvec 1 - pt 1) ^ 2 + (tvec 2 - pt 2) ^ 2) / dt ^ 2 := by
          field_simp
        rw [hsum, Real.sqrt_div (by positivity), Real.sqrt_sq (le_of_lt hdt)]
      rw [if_pos h, if_pos h, if_pos h, htv]
      simp [specAngVel]
    · rw [if_neg h, if_neg h, if_neg h]

/-! ### The velocity divisor `dt` and the global `prev_time`
(lines 316-317, 403-411, 448-450)

`dt = now - prev_time` is computed once per frame from a single global
`prev_time`, which is set to `now` inside the per-detection loop — so it holds
the timestamp of the most recent earlier frame that had at least one
successfully posed detection, shared by all face slots. -/

/-- Timing state: the global `prev_time`, plus — as a ghost observation for
stating the claim — the capture time at which each face slot's stored
previous pose (`prev_rvecs[fi]`/`prev_tvecs[fi]`) was produced. -/
structure KinTimeState where
  prev_time : ℚ
  lastPoseTime : List (Option ℚ)
deriving DecidableEq, Repr

/-- Pad the per-slot list with `none` up to `n` slots (lines 323-326). -/
def padSlots (l : List (Option ℚ)) (n : Nat) : List (Option ℚ) :=
  l ++ List.replicate (n - l.length) none

/-- Per slot, the divisor used for that slot's velocity this frame: `some dt`
when the slot was posed this frame, has a stored previous pose, and
`dt > 1e-6`; `none` otherwise (lines 403-411). -/
def dtsFor (posed : List Bool) (slots : List (Option ℚ)) (dt : ℚ) : List (Option ℚ) :=
  match posed, slots with
  | [], _ => []
  | _ :: ps, [] => none :: dtsFor ps [] dt
  | p :: ps, o :: os =>
      (if p ∧ o.isSome ∧ 1 / 1000000 < dt then some dt else none) :: dtsFor ps os dt

/-- Slot updates of lines 448-449: every slot posed this frame now stores a
pose produced at `now`; other slots keep their stored pose. -/
def updSlots (posed : List Bool) (slots : List (Option ℚ)) (now : ℚ) : List (Option ℚ) :=
  match posed, slots with
  | _, [] => []
  | [], os => os
  | p :: ps, o :: os => (if p then some now else o) :: updSlots ps os now

/-- One frame of the timing bookkeeping: the single global `dt` (line 317),
per-slot velocity divisors, the per-slot pose-time updates, and the global
`prev_time := now` executed only inside the per-detection loop (line 450). -/
def timeStep (s : KinTimeState) (now : ℚ) (posed : List Bool) :
    KinTimeState × List (Option ℚ) :=
  let slots := padSlots s.lastPoseTime posed.length
  let dt := now - s.prev_time
  (⟨if posed.any id then now else s.prev_time, updSlots posed slots now⟩,
    dtsFor posed slots dt)

lemma dtsFor_mem (dt : ℚ) :
    ∀ (posed : List Bool) (slots : List (Option ℚ)) (x : Option ℚ),
      x ∈ dtsFor posed slots dt → x = none ∨ x = some dt := by
  intro posed
  induction posed with
  | nil => intro slots x hx; simp [dtsFor] at hx
  | cons p ps ih =>
      intro slots x hx
      cases slots with
      | nil =>
          rw [dtsFor] at hx
          rcases List.mem_cons.mp hx with h | h
          · exact Or.inl h
          · exact ih [] x h
      | cons o os =>
          rw [dtsFor] at hx
          rcases List.mem_cons.mp hx with h | h
          · by_cases hc : p ∧ o.isSome ∧ 1 / 1000000 < dt
            · rw [if_pos hc] at h; exact Or.inr h
            · rw [if_neg hc] at h; exact Or.inl h
          · exact ih os x h

/-- C7 counterexample: slot 1 is posed at time 1, missed at time 2 (while
slot 0 keeps `prev_time` fresh), and posed again at time 3.  The divisor used
for slot 1's velocity at time 3 is `3 - 2 = 1` (the global dt), but the
elapsed time since slot 1's own previous pose is `3 - 1 = 2` — the dt is not
per-slot. -/
theorem dt_not_per_slot :
    (timeStep (timeStep (timeStep ⟨0, []⟩ 1 [true, true]).1 2 [true]).1
        3 [true, true]).2.getD 1 none = some 1 ∧
    ((timeStep (timeStep ⟨0, []⟩ 1 [true, true]).1 2 [true]).1).lastPoseTime.getD 1 none =
      some 1 ∧
    (3 : ℚ) - 1 ≠ 1 := by
  have h1 : timeStep ⟨0, []⟩ 1 [true, true] =
      (⟨1, [some 1, some 1]⟩, [none, none]) := by
    norm_num [timeStep, padSlots, dtsFor, updSlots, List.replicate]
  have h2 : timeStep (⟨1, [some 1, some 1]⟩ : KinTimeState) 2 [true] =
      (⟨2, [some 2, some 1]⟩, [some 1]) := by
    norm_num [timeStep, padSlots, dtsFor, updSlots, List.replicate]
  have h3 : timeStep (⟨2, [some 2, some 1]⟩ : KinTimeState) 3 [true, true] =
      (⟨3, [some 3, some 3]⟩, [some 1, some 1]) := by
    norm_num [timeStep, padSlots, dtsFor, updSlots, List.replicate]
  rw [h1, h2, h3]
  norm_num

/-- C7 amended: every divisor actually used for a slot's velocity on a frame
equals `now - prev_time`, the elapsed time since the most recent earlier
frame that had at least one posed detection — a single global value shared by
all slots, not the interval since that slot's own previous pose. -/
theorem dt_divisor_is_global (s : KinTimeState) (now : ℚ) (posed : List Bool)
    (i : Nat) (d : ℚ) (h : (timeStep s now posed).2.getD i none = some d) :
    d = now - s.prev_time := by
  have hx : some d ∈ (timeStep s now posed).2 := by
    rw [List.getD_eq_getElem?_getD] at h
    cases hg : (timeStep s now posed).2[i]? with
    | none => rw [hg] at h; simp at h
    | some x =>
        rw [hg] at h
        simp at h
        subst h
        exact List.getElem?_mem hg
  rcases dtsFor_mem _ _ _ _ hx with h' | h'
  · simp at h'
  · exact Option.some.inj h'

/-- Witness for the amended C7 theorem at a concrete input. -/
theorem dt_divisor_is_global_witness :
    (timeStep ⟨0, [some 0]⟩ 2 [true]).2.getD 0 none = some 2 ∧ (2 : ℚ) = 2 - 0 := by
  have hget : (timeStep (⟨0, [some 0]⟩ : KinTimeState) 2 [true]).2.getD 0 none = some 2 := by
    norm_num [timeStep, padSlots, dtsFor, List.replicate]
  exact ⟨hget, dt_divisor_is_global ⟨0, [some 0]⟩ 2 [true] 0 2 hget⟩

/-! ### Collision clip writing (lines 278-305 and 482-488) -/

/-- The frames written by `_start_collision_clip` (lines 288-292): scan the
prebuffer in order and write every frame whose timestamp `ts` satisfies
`min_ts ≤ ts ≤ now_ts` with `min_ts = now_ts - CLIP_PRE_SECONDS`. -/
def startClipWrites (prebuffer : List (ℚ × Nat)) (now_ts : ℚ) : List Nat :=
  prebuffer.foldl
    (fun acc e => if now_ts - CLIP_PRE_SECONDS ≤ e.1 ∧ e.1 ≤ now_ts then acc ++ [e.2] else acc)
    []

/-- Observable outcome of one confirmation event: the collision count after
the increment, the frames written to the clip sink (`none` when the sink
could not be opened), and whether a clip writer remains open afterwards. -/
structure ConfirmResult where
  collision_count : Nat
  clipFrames : Option (List Nat)
  clip_active : Bool
deriving DecidableEq, Repr

/-- The body of `if confirmed and not currently_overlapping:` (lines 482-488)
with the sink-open success of `cv2.VideoWriter` as the parameter `openOk`:
the count is incremented first; then, if no clip is active,
`_start_collision_clip` runs, and when it reports success
`_finish_collision_clip` immediately closes the writer.  An open failure
returns `False` from `_start_collision_clip` (line 287) and nothing is
written; the pipeline continues. -/
def onCollisionConfirmed (count : Nat) (clip_active : Bool) (openOk : Bool)
    (prebuffer : List (ℚ × Nat)) (now : ℚ) : ConfirmResult :=
  let count' := count + 1
  if clip_active then ⟨count', none, clip_active⟩
  else if openOk then ⟨count', some (startClipWrites prebuffer now), false⟩
  else ⟨count', none, false⟩

lemma startClipWrites_foldl (now_ts : ℚ) :
    ∀ (l : List (ℚ × Nat)) (acc : List Nat),
      l.foldl
        (fun acc e =>
          if now_ts - CLIP_PRE_SECONDS ≤ e.1 ∧ e.1 ≤ now_ts then acc ++ [e.2] else acc) acc =
      acc ++ (l.filter
        (fun e => decide (now_ts - CLIP_PRE_SECONDS ≤ e.1 ∧ e.1 ≤ now_ts))).map Prod.snd := by
  intro l
  induction l with
  | nil => intro acc; simp
  | cons e l ih =>
      intro acc
      by_cases hc : now_ts - CLIP_PRE_SECONDS ≤ e.1 ∧ e.1 ≤ now_ts
      · rw [List.foldl_cons, List.filter_cons, if_pos hc, ih,
          if_pos (decide_eq_true hc)]
        simp
      · rw [List.foldl_cons, List.filter_cons, if_neg hc, ih,
          if_neg (by simpa using hc)]

/-- C9: on a confirmation with no clip already active, the collision count is
incremented; when the sink opens, exactly the buffered frames whose
timestamps lie within `[now - CLIP_PRE_SECONDS, now]` are written, in
original buffer (temporal) order, and the writer is closed again; when the
sink cannot be opened, nothing is written but the count increment stands, and
no writer is left open either way. -/
theorem clip_on_confirmation (count : Nat) (openOk : Bool)
    (prebuffer : List (ℚ × Nat)) (now : ℚ) :
    (onCollisionConfirmed count false openOk prebuffer now).collision_count = count + 1 ∧
    (onCollisionConfirmed count false openOk prebuffer now).clipFrames =
      (if openOk then
        some ((prebuffer.filter
          (fun e => decide (now - CLIP_PRE_SECONDS ≤ e.1 ∧ e.1 ≤ now))).map Prod.snd)
      else none) ∧
    (onCollisionConfirmed count false openOk prebuffer now).clip_active = false := by
  refine ⟨?_, ?_, ?_⟩
  · cases openOk <;> rfl
  · cases openOk with
    | false => rfl
    | true =>
        show some (startClipWrites prebuffer now) = _
        rw [if_pos rfl]
        have := startClipWrites_foldl now prebuffer []
        rw [startClipWrites, this, List.nil_append]
  · cases openOk <;> rfl

/-! ### Hitbox computation (lines 335-349) -/

/-- Numpy `np.clip(v, lo, hi) = min(max(v, lo), hi)`. -/
def npClip (v lo hi : ℚ) : ℚ := min (max v lo) hi

/-- Numpy `arr.min()` over the landmark coordinates; 0 on the empty list, which the
source never produces (a posed face always has landmarks). -/
def listMin (l : List ℤ) : ℤ := l.foldl min (l.headD 0)

/-- Numpy `arr.max()` over the landmark coordinates. -/
def listMax (l : List ℤ) : ℤ := l.foldl max (l.headD 0)

/-- The hitbox of one face (lines 335-349): pad the landmark extrema by
`BOX_PADDING` on every side, scale the padded box about its center by
`HITBOX_SCALE`, clip each corner to `[0, w-1] × [0, h-1]`, truncate to int. -/
def hitbox (pts : List (ℤ × ℤ)) (w h : Nat) : Box :=
  let xs := pts.map Prod.fst
  let ys := pts.map Prod.snd
  let base_xmin : ℚ := (listMin xs : ℚ) - (BOX_PADDING : ℚ)
  let base_ymin : ℚ := (listMin ys : ℚ) - (BOX_PADDING : ℚ)
  let base_xmax : ℚ := (listMax xs : ℚ) + (BOX_PADDING : ℚ)
  let base_ymax : ℚ := (listMax ys : ℚ) + (BOX_PADDING : ℚ)
  let c_x := (1/2 : ℚ) * (base_xmin + base_xmax)
  let c_y := (1/2 : ℚ) * (base_ymin + base_ymax)
  let half_w := (1/2 : ℚ) * (base_xmax - base_xmin) * HITBOX_SCALE
  let half_h := (1/2 : ℚ) * (base_ymax - base_ymin) * HITBOX_SCALE
  let x_min := pyInt (npClip (c_x - half_w) 0 ((w : ℚ) - 1))
  let x_max := pyInt (npClip (c_x + half_w) 0 ((w : ℚ) - 1))
  let y_min := pyInt (npClip (c_y - half_h) 0 ((h : ℚ) - 1))
  let y_max := pyInt (npClip (c_y + half_h) 0 ((h : ℚ) - 1))
  ⟨x_min, y_min, x_max, y_max⟩

lemma foldl_min_le (l : List ℤ) : ∀ a : ℤ, l.foldl min a ≤ a := by
  induction l with
  | nil => intro a; exact le_refl a
  | cons x xs ih => intro a; exact le_trans (ih (min a x)) (min_le_left a x)

lemma le_foldl_max (l : List ℤ) : ∀ a : ℤ, a ≤ l.foldl max a := by
  induction l with
  | nil => intro a; exact le_refl a
  | cons x xs ih => intro a; exact le_trans (le_max_left a x) (ih (max a x))

lemma listMin_le_listMax (l : List ℤ) : listMin l ≤ listMax l :=
  le_trans (foldl_min_le l (l.headD 0)) (le_foldl_max l (l.headD 0))

lemma pyInt_of_nonneg (q : ℚ) (h : 0 ≤ q) : pyInt q = ⌊q⌋ := by
  rw [pyInt, if_neg (not_lt.mpr h)]

lemma npClip_nonneg (v B : ℚ) (hB : 0 ≤ B) : 0 ≤ npClip v 0 B :=
  le_min (le_max_right v 0) hB

lemma pyInt_npClip_bounds (v : ℚ) (B : ℤ) (hB : 0 ≤ B) :
    0 ≤ pyInt (npClip v 0 (B : ℚ)) ∧ pyInt (npClip v 0 (B : ℚ)) ≤ B := by
  have h0 : (0 : ℚ) ≤ npClip v 0 (B : ℚ) := npClip_nonneg v _ (by exact_mod_cast hB)
  rw [pyInt_of_nonneg _ h0]
  constructor
  · exact Int.le_floor.mpr (by exact_mod_cast h0)
  · calc ⌊npClip v 0 (B : ℚ)⌋ ≤ ⌊(B : ℚ)⌋ :=
          Int.floor_le_floor (min_le_right _ _)
      _ = B := Int.floor_intCast B

lemma pyInt_npClip_mono (v v' B : ℚ) (hv : v ≤ v') :
    pyInt (npClip v 0 B) ≤ pyInt (npClip v' 0 B) := by
  have hm : npClip v 0 B ≤ npClip v' 0 B :=
    min_le_min (max_le_max hv (le_refl 0)) (le_refl B)
  by_cases h0 : (0 : ℚ) ≤ B
  · rw [pyInt_of_nonneg _ (npClip_nonneg v B h0), pyInt_of_nonneg _ (npClip_nonneg v' B h0)]
    exact Int.floor_le_floor hm
  · have hv0 : npClip v 0 B = B := by
      rw [npClip, min_eq_right]
      exact le_trans (le_of_lt (not_le.mp h0)) (le_max_right v 0)
    have hv1 : npClip v' 0 B = B := by
      rw [npClip, min_eq_right]
      exact le_trans (le_of_lt (not_le.mp h0)) (le_max_right v' 0)
    rw [hv0, hv1]

/-- C10: for every landmark set and frame of width `w ≥ 1` and height
`h ≥ 1`, the hitbox satisfies `0 ≤ x_min ≤ x_max ≤ w-1` and
`0 ≤ y_min ≤ y_max ≤ h-1` — clipping keeps it inside the frame even when the
padded, scaled landmark extrema extend outside. -/
theorem hitbox_within_frame (pts : List (ℤ × ℤ)) (w h : Nat)
    (hw : 1 ≤ w) (hh : 1 ≤ h) :
    0 ≤ (hitbox pts w h).x1 ∧ (hitbox pts w h).x1 ≤ (hitbox pts w h).x2 ∧
    (hitbox pts w h).x2 ≤ (w : ℤ) - 1 ∧
    0 ≤ (hitbox pts w h).y1 ∧ (hitbox pts w h).y1 ≤ (hitbox pts w h).y2 ∧
    (hitbox pts w h).y2 ≤ (h : ℤ) - 1 := by
  have hwB : (0 : ℤ) ≤ (w : ℤ) - 1 := by
    have : (1 : ℤ) ≤ (w : ℤ) := by exact_mod_cast hw
    omega
  have hhB : (0 : ℤ) ≤ (h : ℤ) - 1 := by
    have : (1 : ℤ) ≤ (h : ℤ) := by exact_mod_cast hh
    omega
  have hcastw : ((w : ℚ) - 1) = (((w : ℤ) - 1 : ℤ) : ℚ) := by push_cast; ring
  have hcasth : ((h : ℚ) - 1) = (((h : ℤ) - 1 : ℤ) : ℚ) := by push_cast; ring
  have hxspan := listMin_le_listMax (pts.map Prod.fst)
  have hyspan := listMin_le_listMax (pts.map Prod.snd)
  have hhwx : (0 : ℚ) ≤ (1/2 : ℚ) *
      (((listMax (pts.map Prod.fst) : ℚ) + (BOX_PADDING : ℚ)) -
        ((listMin (pts.map Prod.fst) : ℚ) - (BOX_PADDING : ℚ))) * HITBOX_SCALE := by
    have : (listMin (pts.map Prod.fst) : ℚ) ≤ (listMax (pts.map Prod.fst) : ℚ) := by
      exact_mod_cast hxspan
    rw [HITBOX_SCALE, BOX_PADDING]
    nlinarith
  have hhwy : (0 : ℚ) ≤ (1/2 : ℚ) *
      (((listMax (pts.map Prod.snd) : ℚ) + (BOX_PADDING : ℚ)) -
        ((listMin (pts.map Prod.snd) : ℚ) - (BOX_PADDING : ℚ))) * HITBOX_SCALE := by
    have : (listMin (pts.map Prod.snd) : ℚ) ≤ (listMax (pts.map Prod.snd) : ℚ) := by
      exact_mod_cast hyspan
    rw [HITBOX_SCALE, BOX_PADDING]
    nlinarith
  simp only [hitbox]
  rw [hcastw, hcasth]
  refine ⟨(pyInt_npClip_bounds _ _ hwB).1, pyInt_npClip_mono _ _ _ (by linarith),
    (pyInt_npClip_bounds _ _ hwB).2, (pyInt_npClip_bounds _ _ hhB).1,
    pyInt_npClip_mono _ _ _ (by linarith), (pyInt_npClip_bounds _ _ hhB).2⟩

/-- Witness for the C10 theorem at a concrete input. -/
theorem hitbox_within_frame_witness :
    0 ≤ (hitbox [((5 : ℤ), (7 : ℤ))] 100 50).x1 ∧
    (hitbox [((5 : ℤ), (7 : ℤ))] 100 50).x1 ≤ (hitbox [((5 : ℤ), (7 : ℤ))] 100 50).x2 ∧
    (hitbox [((5 : ℤ), (7 : ℤ))] 100 50).x2 ≤ (100 : ℤ) - 1 ∧
    0 ≤ (hitbox [((5 : ℤ), (7 : ℤ))] 100 50).y1 ∧
    (hitbox [((5 : ℤ), (7 : ℤ))] 100 50).y1 ≤ (hitbox [((5 : ℤ), (7 : ℤ))] 100 50).y2 ∧
    (hitbox [((5 : ℤ), (7 : ℤ))] 100 50).y2 ≤ (50 : ℤ) - 1 :=
  hitbox_within_frame [((5 : ℤ), (7 : ℤ))] 100 50 (by decide) (by decide)

end CollisionDetector
